import Mathlib

/-!
Shallow embedding of the mouse-reporting encoder of `src/gui/mouse.go`
(function `mouseButtonCallback`).

Modelling decisions, all taken from the Go source:

* `glfw.MouseButton` is an integer (MouseButton1 = 0, …, MouseButton8 = 7);
  it is modelled as `ℕ`.
* `glfw.Action` has the values Release, Press, Repeat; it is modelled by the
  inductive `GlfwAction`.
* `glfw.ModifierKey` is a bitmask (`ModShift = 1`, `ModControl = 2`,
  `ModAlt = 4`, `ModSuper = 8`); it is modelled as `ℕ`, tested with `&&&`
  exactly as the source tests `mod & glfw.ModShift > 0` etc.
* The cursor position returned by `w.GetCursorPos()` is a pair of `float64`;
  positions and the cell sizes are modelled as `ℚ`; `math.Floor` followed by
  the conversion to `int` is `Int.floor` (exact for the values at issue).
* Go's conversion of an `int` to `rune` (`int32`) truncates to 32 bits
  (`toRune`); Go's byte arithmetic `b + 32` on a `byte` wraps modulo 256.
* `fmt.Sprintf("%c", r)` renders the rune as its UTF-8 byte sequence and
  replaces an invalid rune (negative, surrogate, or above `0x10FFFF`) by
  U+FFFD; `[]byte(packet)` then yields exactly those bytes (`encodeRune`).
* The branches of the Go `switch` that execute `panic(msg)` are modelled by
  the result `EncodeResult.panicked msg`; a path that falls through without
  writing to the terminal is `EncodeResult.noPacket`; a call of
  `gui.terminal.Write(packet)` is `EncodeResult.packet bytes`.
-/

/-- The mouse modes of `terminal.GetMouseMode()` used by the source's
`switch`: `MouseModeNone`, `MouseModeX10`, `MouseModeVT200`,
`MouseModeVT200Highlight`, `MouseModeButtonEvent`, `MouseModeAnyEvent`. -/
inductive MouseMode
  | none
  | x10
  | vt200
  | vt200Highlight
  | buttonEvent
  | anyEvent
deriving DecidableEq

/-- The `glfw.Action` values `Release`, `Press`, `Repeat`. -/
inductive GlfwAction
  | release
  | press
  | repeatAction
deriving DecidableEq

/-- Result of one invocation of the callback: no terminal write, a write of
the given bytes, or a `panic` with the given message. -/
inductive EncodeResult
  | noPacket
  | packet (bytes : List ℕ)
  | panicked (msg : String)
deriving DecidableEq

/-- Go's conversion of an integer to `rune` (= `int32`): two's-complement
truncation to 32 bits. -/
def toRune (i : ℤ) : ℤ :=
  (i + 2 ^ 31) % 2 ^ 32 - 2 ^ 31

/-- UTF-8 byte sequence of a (valid) code point, as produced by Go's
`utf8.EncodeRune`. -/
def utf8Bytes (n : ℕ) : List ℕ :=
  if n < 0x80 then [n]
  else if n < 0x800 then
    [0xC0 + n / 0x40, 0x80 + n % 0x40]
  else if n < 0x10000 then
    [0xE0 + n / 0x1000, 0x80 + n / 0x40 % 0x40, 0x80 + n % 0x40]
  else
    [0xF0 + n / 0x40000, 0x80 + n / 0x1000 % 0x40, 0x80 + n / 0x40 % 0x40,
      0x80 + n % 0x40]

/-- Go considers a rune valid when it is in `[0, 0xD7FF] ∪ [0xE000, 0x10FFFF]`
(`utf8.ValidRune`). -/
def isValidRune (r : ℤ) : Bool :=
  (0 ≤ r && r < 0xD800) || (0xDFFF < r && r ≤ 0x10FFFF)

/-- The bytes `fmt.Sprintf("%c", r)` contributes to the packet: the UTF-8
encoding of `r`, or the encoding `EF BF BD` of U+FFFD when `r` is not a
valid rune. -/
def encodeRune (r : ℤ) : List ℕ :=
  if isValidRune r then utf8Bytes r.toNat else [0xEF, 0xBF, 0xBD]

/-- The computation `int(math.Floor(p / float64(c))) + 1` converting a pixel
coordinate to a 1-based cell coordinate, used for both `x` and `y` in both
the X10 and the VT200 branch. -/
def cellCoord (p c : ℚ) : ℤ :=
  ⌊p / c⌋ + 1

/-- The bytes of `fmt.Sprintf("\x1b[M%c%c%c", b, x, y)` converted to
`[]byte`: the three literal bytes `ESC [ M` followed by the UTF-8 renderings
of the three parameter runes. -/
def mousePacket (b x y : ℤ) : List ℕ :=
  [0x1B, 0x5B, 0x4D] ++ encodeRune b ++ encodeRune x ++ encodeRune y

/-- The base button code of the VT200 branch: on `Press`, `MouseButton1 → 0`,
`MouseButton2 → 1`, `MouseButton3 → 2` and any other button `return`s
(`Option.none`); on `Release`, 3 for every button; on any other action,
`return` (`Option.none`). -/
def vt200Base (action : GlfwAction) (button : ℕ) : Option ℕ :=
  match action with
  | .press =>
    match button with
    | 0 => some 0
    | 1 => some 1
    | 2 => some 2
    | _ => Option.none
  | .release => some 3
  | .repeatAction => Option.none

/-- The modifier bits OR-ed into the VT200 button code:
`mod & ModShift > 0 → b |= 4`, `mod & ModSuper > 0 → b |= 8`,
`mod & ModControl > 0 → b |= 16` (GLFW: `ModShift = 1`, `ModControl = 2`,
`ModSuper = 8`). -/
def withMods (mod b : ℕ) : ℕ :=
  let b1 := b ||| (if 0 < mod &&& 1 then 4 else 0)
  let b2 := b1 ||| (if 0 < mod &&& 8 then 8 else 0)
  b2 ||| (if 0 < mod &&& 2 then 16 else 0)

/-- The body of `(*GUI).mouseButtonCallback` from `src/gui/mouse.go`,
parameterised by the values the source reads from its collaborators: the
mode from `gui.terminal.GetMouseMode()`, the cursor position from
`w.GetCursorPos()` and the cell sizes from `gui.renderer.CellWidth()` /
`CellHeight()`. In the X10 branch the source sets `b := rune(button)` and
emits `rune(b + 32)` (32-bit rune arithmetic); in the VT200 branch `b` is a
`byte`, so `b + 32` is reduced modulo 256 before the byte→rune
conversion. -/
def mouseButtonCallback (mode : MouseMode) (button : ℕ) (action : GlfwAction)
    (mod : ℕ) (px py cellWidth cellHeight : ℚ) : EncodeResult :=
  match mode with
  | .none => .noPacket
  | .x10 =>
    match action with
    | .press =>
      let b : ℤ := toRune button
      let x : ℤ := cellCoord px cellWidth
      let y : ℤ := cellCoord py cellHeight
      .packet (mousePacket (toRune (b + 32)) (toRune (x + 32)) (toRune (y + 32)))
    | _ => .noPacket
  | .vt200 =>
    match vt200Base action button with
    | Option.none => .noPacket
    | some b0 =>
      let b : ℕ := withMods mod b0
      let x : ℤ := cellCoord px cellWidth
      let y : ℤ := cellCoord py cellHeight
      .packet (mousePacket (((b + 32) % 256 : ℕ) : ℤ) (toRune (x + 32))
        (toRune (y + 32)))
  | .vt200Highlight => .panicked "VT200 mouse highlight mode not supported"
  | .buttonEvent => .panicked "Mouse button event mode not supported"
  | .anyEvent => .panicked "Mouse any event mode not supported"

theorem toRune_eq_self (i : ℤ) (h1 : -(2 ^ 31) ≤ i) (h2 : i < 2 ^ 31) :
    toRune i = i := by
  unfold toRune
  omega

theorem toRune_coe_small (n : ℕ) (h : n < 2 ^ 31) : toRune (n : ℤ) = n := by
  unfold toRune
  omega

theorem encodeRune_coe_small (n : ℕ) (h : n < 128) : encodeRune (n : ℤ) = [n] := by
  have hv : isValidRune (n : ℤ) = true := by
    simp only [isValidRune, Bool.or_eq_true, Bool.and_eq_true, decide_eq_true_eq]
    omega
  rw [encodeRune, if_pos hv, utf8Bytes, if_pos (by omega : (n : ℤ).toNat < 0x80)]
  simp

theorem one_le_encodeRune_length (r : ℤ) :
    1 ≤ (encodeRune r).length := by
  unfold encodeRune utf8Bytes
  split_ifs <;> simp

theorem two_le_encodeRune_length (r : ℤ) (h : 128 ≤ r) :
    2 ≤ (encodeRune r).length := by
  have hn : 128 ≤ r.toNat := by omega
  unfold encodeRune utf8Bytes
  split_ifs <;> simp_all
  omega

/-- C1: the claim states that for VT200Highlight, ButtonEvent and AnyEvent
the encoder returns a recoverable `UnsupportedMode` error and never
terminates the hosting process. The source instead executes `panic(...)` in
each of these three branches, for every pointer event; this theorem records
that divergence. -/
theorem c1_unsupported_modes_abort (button : ℕ) (action : GlfwAction)
    (mod : ℕ) (px py cw ch : ℚ) :
    mouseButtonCallback .vt200Highlight button action mod px py cw ch =
      .panicked "VT200 mouse highlight mode not supported" ∧
    mouseButtonCallback .buttonEvent button action mod px py cw ch =
      .panicked "Mouse button event mode not supported" ∧
    mouseButtonCallback .anyEvent button action mod px py cw ch =
      .panicked "Mouse any event mode not supported" :=
  ⟨rfl, rfl, rfl⟩

/-- C2: the claim states that for `1 ≤ column,row ≤ 223` a VT200 press of
Button1 with no modifiers yields exactly the six bytes
`1B 5B 4D 20 chr(column+32) chr(row+32)`, each parameter a single 8-bit
character. At column 100, row 1 (cell size 1×1, pixel (99,0)) the
parameter 100+32 = 132 ≥ 128 is rendered by Go's `%c` as the two-byte UTF-8
sequence `C2 84`, so the code emits seven bytes, not the claimed six. -/
theorem c2_param_byte_utf8_expanded :
    cellCoord 99 1 = 100 ∧ cellCoord 0 1 = 1 ∧
    mouseButtonCallback .vt200 0 .press 0 99 0 1 1 =
      .packet [0x1B, 0x5B, 0x4D, 0x20, 0xC2, 0x84, 0x21] ∧
    mouseButtonCallback .vt200 0 .press 0 99 0 1 1 ≠
      .packet [0x1B, 0x5B, 0x4D, 0x20, 0x84, 0x21] := by
  have hx : cellCoord 99 1 = 100 := by unfold cellCoord; norm_num
  have hy : cellCoord 0 1 = 1 := by unfold cellCoord; norm_num
  have h : mouseButtonCallback .vt200 0 .press 0 99 0 1 1 =
      .packet [0x1B, 0x5B, 0x4D, 0x20, 0xC2, 0x84, 0x21] := by
    unfold mouseButtonCallback
    simp only [vt200Base, hx, hy]
    decide
  refine ⟨hx, hy, h, ?_⟩
  rw [h]
  decide

/-- C3: the claim states that a computed column or row whose `value + 32`
exceeds one byte yields `EncodeError::CoordinateOutOfRange` and no packet.
The source performs no range check at all: at column 301 (cell size 1×1,
pixel (300,0)), where 301+32 = 333 > 255, a packet is still written, with
the column parameter expanded to the two UTF-8 bytes `C5 8D`. -/
theorem c3_out_of_range_coordinate_still_sent :
    cellCoord 300 1 = 301 ∧ (255 : ℤ) < 301 + 32 ∧
    mouseButtonCallback .vt200 0 .press 0 300 0 1 1 =
      .packet [0x1B, 0x5B, 0x4D, 0x20, 0xC5, 0x8D, 0x21] := by
  have hx : cellCoord 300 1 = 301 := by unfold cellCoord; norm_num
  have hy : cellCoord 0 1 = 1 := by unfold cellCoord; norm_num
  refine ⟨hx, by norm_num, ?_⟩
  unfold mouseButtonCallback
  simp only [vt200Base, hx, hy]
  decide

/-- C4: the claim states that negative pixel positions are clamped so that
the emitted column/row byte is `chr(1+32)` = 0x21. The source does not
clamp: at pixel (-50,0) with 10×10 cells the column is
`⌊-50/10⌋ + 1 = -4` and the emitted column byte is `-4+32 = 28` (0x1C), a
byte derived from the negative coordinate, not 0x21. -/
theorem c4_negative_pixel_not_clamped :
    cellCoord (-50) 10 = -4 ∧
    mouseButtonCallback .vt200 0 .press 0 (-50) 0 10 10 =
      .packet [0x1B, 0x5B, 0x4D, 0x20, 0x1C, 0x21] ∧
    mouseButtonCallback .vt200 0 .press 0 (-50) 0 10 10 ≠
      .packet [0x1B, 0x5B, 0x4D, 0x20, 0x21, 0x21] := by
  have hx : cellCoord (-50) 10 = -4 := by unfold cellCoord; norm_num
  have hy : cellCoord 0 10 = 1 := by unfold cellCoord; norm_num
  have h : mouseButtonCallback .vt200 0 .press 0 (-50) 0 10 10 =
      .packet [0x1B, 0x5B, 0x4D, 0x20, 0x1C, 0x21] := by
    unfold mouseButtonCallback
    simp only [vt200Base, hx, hy]
    decide
  refine ⟨hx, h, ?_⟩
  rw [h]
  decide

/-- C7: when the tracking mode is `None`, the callback returns without
writing anything, for every action, button, modifier set and position. -/
theorem c7_mode_none_no_packet (button : ℕ) (action : GlfwAction) (mod : ℕ)
    (px py cw ch : ℚ) :
    mouseButtonCallback .none button action mod px py cw ch = .noPacket :=
  rfl

/-- C5 counterexample: the claim states that in X10 mode a press of a button
outside Button1..Button3 yields no packet. Pressing Button4 (GLFW code 3)
at pixel (0,0) with 10×10 cells emits the packet `1B 5B 4D 23 21 21`: the
X10 branch of the source contains no button filter. -/
theorem c5_counterexample_button4_sends_packet :
    mouseButtonCallback .x10 3 .press 0 0 0 10 10 =
      .packet [0x1B, 0x5B, 0x4D, 0x23, 0x21, 0x21] ∧
    mouseButtonCallback .x10 3 .press 0 0 0 10 10 ≠ .noPacket := by
  have hc : cellCoord 0 10 = 1 := by unfold cellCoord; norm_num
  have h : mouseButtonCallback .x10 3 .press 0 0 0 10 10 =
      .packet [0x1B, 0x5B, 0x4D, 0x23, 0x21, 0x21] := by
    unfold mouseButtonCallback
    simp only [hc]
    decide
  refine ⟨h, ?_⟩
  rw [h]
  decide

/-- C5 amended: in X10 mode every press, with any GLFW button code
(0 ≤ b ≤ 7, so also the buttons outside Button1..Button3), emits a packet
whose button byte is `b + 32`; no button filtering happens in this mode. -/
theorem c5_amended_x10_press_any_button (b mod : ℕ) (px py cw ch : ℚ)
    (hb : b ≤ 7) :
    mouseButtonCallback .x10 b .press mod px py cw ch =
      .packet ([0x1B, 0x5B, 0x4D, b + 32] ++
        encodeRune (toRune (cellCoord px cw + 32)) ++
        encodeRune (toRune (cellCoord py ch + 32))) := by
  show EncodeResult.packet
      (mousePacket (toRune (toRune (b : ℤ) + 32)) (toRune (cellCoord px cw + 32))
        (toRune (cellCoord py ch + 32))) = _
  rw [toRune_coe_small b (by omega)]
  rw [toRune_eq_self ((b : ℤ) + 32) (by omega) (by omega)]
  have hcast : (b : ℤ) + 32 = ((b + 32 : ℕ) : ℤ) := by push_cast; ring
  rw [hcast]
  unfold mousePacket
  rw [encodeRune_coe_small (b + 32) (by omega)]
  simp

/-- C5 amended, witness at Button4. -/
theorem c5_amended_witness :
    (3 : ℕ) ≤ 7 ∧
    mouseButtonCallback .x10 3 .press 0 0 0 10 10 =
      .packet [0x1B, 0x5B, 0x4D, 0x23, 0x21, 0x21] := by
  have hc : cellCoord 0 10 = 1 := by unfold cellCoord; norm_num
  have h := c5_amended_x10_press_any_button 3 0 0 0 10 10 (by decide)
  rw [hc] at h
  refine ⟨by decide, ?_⟩
  rw [h]
  decide

/-- C8: for non-negative pixel positions and positive cell sizes the
computed cell coordinate is `⌊pixel / cell⌋ + 1`, it is always at least 1,
and pixel 0 (so in particular the pointer at (0,0)) maps to coordinate 1 in
both axes. -/
theorem c8_cell_coordinates (px py cw ch : ℚ) (hx : 0 ≤ px) (hy : 0 ≤ py)
    (hw : 0 < cw) (hh : 0 < ch) :
    cellCoord px cw = ⌊px / cw⌋ + 1 ∧ cellCoord py ch = ⌊py / ch⌋ + 1 ∧
    1 ≤ cellCoord px cw ∧ 1 ≤ cellCoord py ch ∧
    cellCoord 0 cw = 1 ∧ cellCoord 0 ch = 1 := by
  refine ⟨rfl, rfl, ?_, ?_, ?_, ?_⟩
  · have h0 : (0 : ℤ) ≤ ⌊px / cw⌋ := Int.floor_nonneg.mpr (div_nonneg hx hw.le)
    unfold cellCoord
    omega
  · have h0 : (0 : ℤ) ≤ ⌊py / ch⌋ := Int.floor_nonneg.mpr (div_nonneg hy hh.le)
    unfold cellCoord
    omega
  · unfold cellCoord
    rw [zero_div]
    simp
  · unfold cellCoord
    rw [zero_div]
    simp

/-- C8 witness at the spec's worked example: cell 10×20, pixel (15,25). -/
theorem c8_cell_coordinates_witness :
    (0 : ℚ) ≤ 15 ∧ (0 : ℚ) ≤ 25 ∧ (0 : ℚ) < 10 ∧ (0 : ℚ) < 20 ∧
    (cellCoord 15 10 = ⌊(15 : ℚ) / 10⌋ + 1 ∧
     cellCoord 25 20 = ⌊(25 : ℚ) / 20⌋ + 1 ∧
     1 ≤ cellCoord 15 10 ∧ 1 ≤ cellCoord 25 20 ∧
     cellCoord 0 10 = 1 ∧ cellCoord 0 20 = 1) ∧
    cellCoord 15 10 = 2 ∧ cellCoord 25 20 = 2 := by
  refine ⟨by norm_num, by norm_num, by norm_num, by norm_num,
    c8_cell_coordinates 15 25 10 20 (by norm_num) (by norm_num) (by norm_num)
      (by norm_num), ?_, ?_⟩
  · unfold cellCoord
    norm_num
  · unfold cellCoord
    norm_num

theorem vt200Base_le_three {action : GlfwAction} {button b0 : ℕ}
    (h : vt200Base action button = some b0) : b0 ≤ 3 := by
  unfold vt200Base at h
  cases action with
  | release => simp_all
  | repeatAction => simp_all
  | press =>
    rcases button with _ | _ | _ | n <;> simp_all
    all_goals omega

/-- The GLFW modifier bitmask carrying exactly the given subset of
{Shift, Meta(= Super), Control}: `ModShift = 1`, `ModControl = 2`,
`ModSuper = 8`. -/
def modMask (shift sup ctrl : Bool) : ℕ :=
  (if shift then 1 else 0) + (if ctrl then 2 else 0) + (if sup then 8 else 0)

theorem withMods_zero (b : ℕ) : withMods 0 b = b := by
  unfold withMods
  simp

theorem withMods_modMask (shift sup ctrl : Bool) (b0 : ℕ) (hb : b0 ≤ 3) :
    withMods (modMask shift sup ctrl) b0 =
      b0 + (if shift then 4 else 0) + (if sup then 8 else 0) +
        (if ctrl then 16 else 0) := by
  interval_cases b0 <;> cases shift <;> cases sup <;> cases ctrl <;> decide

theorem mousePacket_length (b x y : ℤ) :
    (mousePacket b x y).length =
      3 + (encodeRune b).length + (encodeRune x).length +
        (encodeRune y).length := by
  unfold mousePacket
  simp [List.length_append]
  omega

theorem vt200_callback_eq_none {action : GlfwAction} {button : ℕ}
    (h : vt200Base action button = Option.none) (mod : ℕ) (px py cw ch : ℚ) :
    mouseButtonCallback .vt200 button action mod px py cw ch = .noPacket := by
  unfold mouseButtonCallback
  rw [h]

theorem vt200_callback_eq_some {action : GlfwAction} {button b0 : ℕ}
    (h : vt200Base action button = some b0) (mod : ℕ) (px py cw ch : ℚ) :
    mouseButtonCallback .vt200 button action mod px py cw ch =
      .packet (mousePacket (((withMods mod b0 + 32) % 256 : ℕ) : ℤ)
        (toRune (cellCoord px cw + 32)) (toRune (cellCoord py ch + 32))) := by
  unfold mouseButtonCallback
  rw [h]

theorem x10_callback_press (button : ℕ) (mod : ℕ) (px py cw ch : ℚ) :
    mouseButtonCallback .x10 button .press mod px py cw ch =
      .packet (mousePacket (toRune (toRune (button : ℤ) + 32))
        (toRune (cellCoord px cw + 32)) (toRune (cellCoord py ch + 32))) :=
  rfl

/-- C6: in VT200 mode, whenever an event produces a packet, turning on any
subset of {Shift, Meta(Super), Control} in the GLFW modifier mask adds
exactly 4, 8 and 16 to the emitted button byte, each bit independently of
the others, of the button and of press versus release; the coordinate bytes
are unchanged. -/
theorem c6_modifier_additivity (shift sup ctrl : Bool) (action : GlfwAction)
    (button : ℕ) (px py cw ch : ℚ) (bb : ℕ) (rest : List ℕ)
    (h : mouseButtonCallback .vt200 button action 0 px py cw ch =
      .packet (0x1B :: 0x5B :: 0x4D :: bb :: rest)) :
    mouseButtonCallback .vt200 button action (modMask shift sup ctrl) px py cw ch =
      .packet (0x1B :: 0x5B :: 0x4D ::
        (bb + (if shift then 4 else 0) + (if sup then 8 else 0) +
          (if ctrl then 16 else 0)) :: rest) := by
  cases hres : vt200Base action button with
  | none =>
    rw [vt200_callback_eq_none hres] at h
    exact absurd h (by simp)
  | some b0 =>
    have hb3 : b0 ≤ 3 := vt200Base_le_three hres
    have hS : (if shift then 4 else 0) ≤ 4 := by split <;> omega
    have hM : (if sup then 8 else 0) ≤ 8 := by split <;> omega
    have hC : (if ctrl then 16 else 0) ≤ 16 := by split <;> omega
    rw [vt200_callback_eq_some hres, withMods_zero,
      Nat.mod_eq_of_lt (by omega)] at h
    rw [vt200_callback_eq_some hres, withMods_modMask shift sup ctrl b0 hb3,
      Nat.mod_eq_of_lt (by omega)]
    unfold mousePacket at h ⊢
    rw [encodeRune_coe_small (b0 + 32) (by omega)] at h
    rw [encodeRune_coe_small _ (by omega)]
    simp only [List.cons_append, List.nil_append, EncodeResult.packet.injEq,
      List.cons.injEq, true_and] at h ⊢
    obtain ⟨hbb, hrest⟩ := h
    exact ⟨by omega, hrest⟩

/-- C6 witness: full chord Shift+Meta+Control on a Button1 press turns the
button byte 0x20 into 0x20+4+8+16 = 0x3C. -/
theorem c6_modifier_additivity_witness :
    mouseButtonCallback .vt200 0 .press 0 9 9 10 10 =
      .packet (0x1B :: 0x5B :: 0x4D :: 0x20 :: [0x21, 0x21]) ∧
    mouseButtonCallback .vt200 0 .press (modMask true true true) 9 9 10 10 =
      .packet (0x1B :: 0x5B :: 0x4D :: (0x20 + 4 + 8 + 16) :: [0x21, 0x21]) := by
  have hc : cellCoord 9 10 = 1 := by unfold cellCoord; norm_num
  have h1 : mouseButtonCallback .vt200 0 .press 0 9 9 10 10 =
      .packet (0x1B :: 0x5B :: 0x4D :: 0x20 :: [0x21, 0x21]) := by
    unfold mouseButtonCallback
    simp only [vt200Base, hc]
    decide
  have h2 := c6_modifier_additivity true true true .press 0 9 9 10 10 0x20
    [0x21, 0x21] h1
  simp only [if_pos] at h2
  exact ⟨h1, h2⟩

/-- C9: the encoder is a pure function of (mode, event, metrics): two
invocations on identical inputs yield identical results. -/
theorem c9_deterministic (mode : MouseMode) (button : ℕ) (action : GlfwAction)
    (mod : ℕ) (px py cw ch : ℚ) (r1 r2 : EncodeResult)
    (h1 : r1 = mouseButtonCallback mode button action mod px py cw ch)
    (h2 : r2 = mouseButtonCallback mode button action mod px py cw ch) :
    r1 = r2 :=
  h1.trans h2.symm

/-- C9 witness: two evaluations of the VT200 Button1 press at (0,0). -/
theorem c9_deterministic_witness :
    EncodeResult.packet [0x1B, 0x5B, 0x4D, 0x20, 0x21, 0x21] =
      EncodeResult.packet [0x1B, 0x5B, 0x4D, 0x20, 0x21, 0x21] := by
  have hc : cellCoord 0 10 = 1 := by unfold cellCoord; norm_num
  have h : mouseButtonCallback .vt200 0 .press 0 0 0 10 10 =
      .packet [0x1B, 0x5B, 0x4D, 0x20, 0x21, 0x21] := by
    unfold mouseButtonCallback
    simp only [vt200Base, hc]
    decide
  exact c9_deterministic .vt200 0 .press 0 0 0 10 10 _ _ h.symm h.symm

/-- C10: whenever a packet is emitted and the rune of the column, the row or
(in X10 mode) the button parameter is at least 128, the packet is strictly
longer than 6 bytes, because that parameter is written as a multi-byte
UTF-8 sequence. -/
theorem c10_wide_param_lengthens_packet (mode : MouseMode) (button : ℕ)
    (action : GlfwAction) (mod : ℕ) (px py cw ch : ℚ) (bytes : List ℕ)
    (h : mouseButtonCallback mode button action mod px py cw ch = .packet bytes)
    (hwide : 128 ≤ toRune (cellCoord px cw + 32) ∨
      128 ≤ toRune (cellCoord py ch + 32) ∨
      (mode = .x10 ∧ 128 ≤ toRune (toRune (button : ℤ) + 32))) :
    6 < bytes.length := by
  cases mode with
  | none => simp [mouseButtonCallback] at h
  | vt200Highlight => simp [mouseButtonCallback] at h
  | buttonEvent => simp [mouseButtonCallback] at h
  | anyEvent => simp [mouseButtonCallback] at h
  | x10 =>
    cases action with
    | release => simp [mouseButtonCallback] at h
    | repeatAction => simp [mouseButtonCallback] at h
    | press =>
      have hbytes : bytes = mousePacket (toRune (toRune (button : ℤ) + 32))
          (toRune (cellCoord px cw + 32)) (toRune (cellCoord py ch + 32)) := by
        have h' := (x10_callback_press button mod px py cw ch).symm.trans h
        exact (EncodeResult.packet.inj h'.symm)
      rw [hbytes, mousePacket_length]
      have l1 := one_le_encodeRune_length (toRune (toRune (button : ℤ) + 32))
      have l2 := one_le_encodeRune_length (toRune (cellCoord px cw + 32))
      have l3 := one_le_encodeRune_length (toRune (cellCoord py ch + 32))
      rcases hwide with hw | hw | ⟨_, hw⟩
      · have := two_le_encodeRune_length _ hw
        omega
      · have := two_le_encodeRune_length _ hw
        omega
      · have := two_le_encodeRune_length _ hw
        omega
  | vt200 =>
    cases hres : vt200Base action button with
    | none =>
      rw [vt200_callback_eq_none hres] at h
      exact absurd h (by simp)
    | some b0 =>
      have hbytes : bytes =
          mousePacket (((withMods mod b0 + 32) % 256 : ℕ) : ℤ)
            (toRune (cellCoord px cw + 32)) (toRune (cellCoord py ch + 32)) := by
        have h' := (vt200_callback_eq_some hres mod px py cw ch).symm.trans h
        exact (EncodeResult.packet.inj h'.symm)
      rw [hbytes, mousePacket_length]
      have l1 := one_le_encodeRune_length
        (((withMods mod b0 + 32) % 256 : ℕ) : ℤ)
      have l2 := one_le_encodeRune_length (toRune (cellCoord px cw + 32))
      have l3 := one_le_encodeRune_length (toRune (cellCoord py ch + 32))
      rcases hwide with hw | hw | ⟨hmode, _⟩
      · have := two_le_encodeRune_length _ hw
        omega
      · have := two_le_encodeRune_length _ hw
        omega
      · exact absurd hmode (by simp)

/-- C10 witness: X10 press of Button1 at column 100 (parameter 132 ≥ 128)
produces a 7-byte packet. -/
theorem c10_wide_param_witness :
    6 < ([0x1B, 0x5B, 0x4D, 0x20, 0xC2, 0x84, 0x21] : List ℕ).length := by
  have hx : cellCoord 99 1 = 100 := by unfold cellCoord; norm_num
  have hy : cellCoord 0 1 = 1 := by unfold cellCoord; norm_num
  have h : mouseButtonCallback .x10 0 .press 0 99 0 1 1 =
      .packet [0x1B, 0x5B, 0x4D, 0x20, 0xC2, 0x84, 0x21] := by
    unfold mouseButtonCallback
    simp only [hx, hy]
    decide
  exact c10_wide_param_lengthens_packet .x10 0 .press 0 99 0 1 1 _ h
    (Or.inl (by rw [hx]; decide))
